import Mathlib

/-!
Shallow embedding of the XENSIV 60 GHz radar presence-detection library
(`xensiv_radar_presence.c`) and of the range/angle-of-arrival utility
(`source/angle_range.c`).

Modelling conventions, fixed once for the whole development:

* `float32_t` values are modelled as exact rationals (`ℚ`); complex values
  (`cfloat32_t`) as pairs `ℚ × ℚ`.
* `XENSIV_RADAR_PRESENCE_TIMESTAMP` (the header that declares it is not part
  of the sources; all uses in the `.c` file are arithmetic with unsigned
  literals) is modelled as `ℕ`, with truncated subtraction where the code
  subtracts.  `int32_t` counters and indices are modelled as `ℤ`.
* The external CMSIS-DSP / sensor-dsp routines (`ifx_range_fft_f32`,
  `arm_fir_f32`, `arm_fir_decimate_f32`, `arm_cfft_f32`, `cabsf`) are not
  part of the repository sources.  They enter the model as oracle inputs:
  each call to `xensiv_radar_presence_process_frame` receives the output of
  the range FFT (`spectrum`), the output of the per-bin bandpass filter bank
  for this frame (`bpSpectrum`) and the output of the Doppler FFT of the
  column processed this frame (`dopplerOut`).  Universally quantified
  theorems range over all values of these inputs, which includes the values
  the real DSP routines produce; concrete executions instantiate them with
  values the real routines can produce (justified at each use).  `cabsf` is
  a function parameter `mag`.
* Buffers whose contents are consumed only by the abstracted DSP routines
  (the micro history ring `micro_fft_buffer`, the decimation carry buffer,
  the FIR state vectors, `micro_fft_col_buffer`) carry no information that
  reaches any other observable of the model, so their contents are not
  tracked; all the indices and flags that govern them are tracked exactly.
* Out-of-range C array reads are total in the model (default `0`, the value
  `calloc`/`memset` store); the one out-of-range read the development
  exhibits is reported explicitly through the `microSelReadIdx` observation.
-/

/-- Presence-detection run mode (`xensiv_radar_presence_mode_t`). -/
inductive PMode where
  | macroOnly
  | microOnly
  | microIfMacro
  | microAndMacro
deriving DecidableEq, Repr

/-- Presence state (`xensiv_radar_presence_state_t`).  `reserved` models the
placeholder fourth enumerator that the code never assigns. -/
inductive PrState where
  | absence
  | macroPresence
  | microPresence
  | reserved
deriving DecidableEq, Repr

/-- Return status (`XENSIV_RADAR_PRESENCE_OK` and friends). -/
inductive PStatus where
  | ok
  | memError
  | fftLenError
  | dspError
deriving DecidableEq, Repr

/-- `xensiv_radar_presence_config_t`. -/
structure PConfig where
  bandwidth : ℚ
  numSamplesPerChirp : ℤ
  microFftDecimationEnabled : Bool
  microFftSize : ℤ
  macroThreshold : ℚ
  microThreshold : ℚ
  minRangeBin : ℤ
  maxRangeBin : ℤ
  macroCompareIntervalMs : ℕ
  macroMovementValidityMs : ℕ
  microMovementValidityMs : ℕ
  macroMovementConfirmations : ℤ
  macroTriggerRange : ℤ
  mode : PMode
  macroFftBandpassFilterEnabled : Bool
  microMovementCompareIdx : ℤ
deriving DecidableEq, Repr

/-- `xensiv_radar_presence_event_t`. -/
structure PEvent where
  timestamp : ℕ
  rangeBin : ℤ
  state : PrState
deriving DecidableEq, Repr

/-- The mutable part of `struct xensiv_radar_presence_context` that is
observable by the claims (see the module comment for the buffers whose
contents are intentionally not tracked). -/
structure PState where
  config : PConfig
  maxMicroFftSize : ℤ
  maxRangeLimitIdx : ℤ
  macroFftSize : ℤ
  lastMacroCompare : List (ℚ × ℚ)
  macroLastCompareInit : Bool
  macroLastCompareMs : ℕ
  bandpassInitialTimeMs : ℕ
  macroMovementHitCount : ℤ
  macroDetectTimestamps : List ℕ
  microDetectTimestamps : List ℕ
  macroDetectConfidences : List ℚ
  microDetectDistances : List ℚ
  maxMacroScore : ℚ
  maxMacroIdx : ℤ
  maxMicro : ℚ
  maxMicroIdx : ℤ
  lastMacroReportedIdx : ℤ
  lastMicroReportedIdx : ℤ
  lastReportedIdx : ℤ
  microFftWriteRowIdx : ℤ
  microFftCalcColIdx : ℤ
  microFftDecimationWriteRowIdx : ℤ
  microFftCalcReady : Bool
  microFftAllCalculated : Bool
  state : PrState
deriving DecidableEq, Repr

/-- Per-call oracle inputs: outputs of the external DSP stages for one call
to `process_frame` (see the module comment). -/
structure FrameInput where
  spectrum : List (ℚ × ℚ)
  bpSpectrum : List (ℚ × ℚ)
  dopplerOut : List (ℚ × ℚ)
deriving DecidableEq, Repr

/-- Read a timestamp array at an `int32_t` index; out of range reads the
`calloc`/`memset` value `0`. -/
def getTs (l : List ℕ) (i : ℤ) : ℕ :=
  if 0 ≤ i then l.getD i.toNat 0 else 0

/-- Read a `float32_t` array at an `int32_t` index (default `0`). -/
def getQ (l : List ℚ) (i : ℤ) : ℚ :=
  if 0 ≤ i then l.getD i.toNat 0 else 0

/-- Read a `cfloat32_t` array at an `int32_t` index (default `0`). -/
def getC (l : List (ℚ × ℚ)) (i : ℤ) : ℚ × ℚ :=
  if 0 ≤ i then l.getD i.toNat (0, 0) else (0, 0)

/-- Write a timestamp array at an `int32_t` index (no-op out of range). -/
def setTs (l : List ℕ) (i : ℤ) (v : ℕ) : List ℕ :=
  if 0 ≤ i then l.set i.toNat v else l

/-- Write a `float32_t` array at an `int32_t` index (no-op out of range). -/
def setQ (l : List ℚ) (i : ℤ) (v : ℚ) : List ℚ :=
  if 0 ≤ i then l.set i.toNat v else l

/-- Complex subtraction on `cfloat32_t` values. -/
def csub (a b : ℚ × ℚ) : ℚ × ℚ := (a.1 - b.1, a.2 - b.2)

/-- The list `[a, a+1, ..., a+n-1]`: the index sequence of a C loop
`for (i = a; i < a + n; ++i)`. -/
def intRange (a : ℤ) : ℕ → List ℤ
  | 0 => []
  | n + 1 => a :: intRange (a + 1) n

/-- Index sequence of the ubiquitous loop
`for (i = min_range_bin; i <= max_range_bin; ++i)`. -/
def binRange (c : PConfig) : List ℤ :=
  intRange c.minRangeBin (c.maxRangeBin - c.minRangeBin + 1).toNat

/-- First element of a list satisfying `p`, mirroring a C search loop that
breaks at the first match. -/
def findFirst (p : ℤ → Bool) : List ℤ → Option ℤ
  | [] => none
  | i :: is => if p i then some i else findFirst p is

/-- `range_intensity_win[i] = 0.2f * (i + 1.0f)`, precomputed in
`xensiv_radar_presence_alloc`. -/
def range_intensity_win (i : ℤ) : ℚ := (0.2 : ℚ) * ((i : ℚ) + 1)

/-- `RADAR_PRESENCE_BANDPASS_DELAY`. -/
def bandpassDelay : ℕ := 490

/-- `RADAR_PRESENCE_DECIMATION_FACTOR`. -/
def decimationFactor : ℤ := 8

/-- `ifx_range_resolution` of the external sensor-dsp library.  Modelled from
the spec: bin length `Δd = c / (2·B)` (spec section 3, "Range spectrum"). -/
def ifx_range_resolution (bandwidth : ℚ) : ℚ := 299792458 / (2 * bandwidth)

/-- `xensiv_radar_presence_init_config`: the default configuration. -/
def xensiv_radar_presence_init_config : PConfig :=
  { bandwidth := 460000000
    numSamplesPerChirp := 128
    microFftDecimationEnabled := false
    microFftSize := 128
    macroThreshold := 1
    microThreshold := 25
    minRangeBin := 1
    maxRangeBin := 5
    macroCompareIntervalMs := 250
    macroMovementValidityMs := 1000
    microMovementValidityMs := 4000
    macroMovementConfirmations := 0
    macroTriggerRange := 1
    mode := PMode.microIfMacro
    macroFftBandpassFilterEnabled := false
    microMovementCompareIdx := 5 }

/-- `xensiv_radar_presence_reset`: clears detection state without touching
the configuration or the allocation-time constants. -/
def xensiv_radar_presence_reset (s : PState) : PState :=
  { s with
    microFftDecimationWriteRowIdx := 0
    microFftWriteRowIdx := 0
    microFftCalcReady := false
    microFftCalcColIdx := 0
    microFftAllCalculated := false
    macroDetectTimestamps := List.replicate s.macroFftSize.toNat 0
    microDetectTimestamps := List.replicate s.macroFftSize.toNat 0
    macroDetectConfidences := List.replicate s.macroFftSize.toNat 0
    microDetectDistances := List.replicate s.macroFftSize.toNat 0
    macroLastCompareInit := false
    macroLastCompareMs := 0
    macroMovementHitCount := 0
    lastMacroReportedIdx := -1
    lastMicroReportedIdx := -1
    state := PrState.absence
    maxMacroScore := 0
    maxMicro := 0
    maxMacroIdx := -1
    maxMicroIdx := -1
    lastReportedIdx := -1
    bandpassInitialTimeMs := 0 }

/-- `xensiv_radar_presence_alloc` (the successful path): records the
configuration, computes `macro_fft_size = num_samples_per_chirp / 2` and
`max_range_limit_idx = floor(5.0 / Δd)`, zero-initializes (`calloc`) the
per-bin arrays, and ends with a call to `reset`.  Allocation failures and
the FFT-length validation of the external CMSIS init routines are outside
the claims and are not modelled. -/
def xensiv_radar_presence_alloc (cfg : PConfig) : PState :=
  xensiv_radar_presence_reset
    { config := cfg
      maxMicroFftSize := cfg.microFftSize
      maxRangeLimitIdx := Int.floor ((5 : ℚ) / ifx_range_resolution cfg.bandwidth)
      macroFftSize := cfg.numSamplesPerChirp / 2
      lastMacroCompare := List.replicate (cfg.numSamplesPerChirp / 2).toNat (0, 0)
      macroLastCompareInit := false
      macroLastCompareMs := 0
      bandpassInitialTimeMs := 0
      macroMovementHitCount := 0
      macroDetectTimestamps := List.replicate (cfg.numSamplesPerChirp / 2).toNat 0
      microDetectTimestamps := List.replicate (cfg.numSamplesPerChirp / 2).toNat 0
      macroDetectConfidences := List.replicate (cfg.numSamplesPerChirp / 2).toNat 0
      microDetectDistances := List.replicate (cfg.numSamplesPerChirp / 2).toNat 0
      maxMacroScore := 0
      maxMacroIdx := -1
      maxMicro := 0
      maxMicroIdx := -1
      lastMacroReportedIdx := -1
      lastMicroReportedIdx := -1
      lastReportedIdx := -1
      microFftWriteRowIdx := 0
      microFftCalcColIdx := 0
      microFftDecimationWriteRowIdx := 0
      microFftCalcReady := false
      microFftAllCalculated := false
      state := PrState.absence }

/-- `xensiv_radar_presence_get_config`. -/
def xensiv_radar_presence_get_config (s : PState) : PConfig := s.config

/-- `xensiv_radar_presence_set_config` (lines 477-497): rejects a
`micro_fft_size` above the allocation-time value, otherwise copies the whole
configuration in and clamps `min_range_bin` and `max_range_bin` down to
`max_range_limit_idx`. -/
def xensiv_radar_presence_set_config (s : PState) (c : PConfig) :
    PStatus × PState :=
  if s.maxMicroFftSize < c.microFftSize then
    (PStatus.fftLenError, s)
  else
    let newMin := if s.maxRangeLimitIdx < c.minRangeBin then
        s.maxRangeLimitIdx else c.minRangeBin
    let newMax := if s.maxRangeLimitIdx < c.maxRangeBin then
        s.maxRangeLimitIdx else c.maxRangeBin
    (PStatus.ok,
     { s with config :=
         { c with minRangeBin := newMin, maxRangeBin := newMax } })

/-- `switch_to_absence` (lines 1157-1176): emits an absence event and clears
the micro reporting state. -/
def switch_to_absence (s : PState) (t : ℕ) : PState × List PEvent :=
  ({ s with state := PrState.absence
            lastMicroReportedIdx := -1
            microFftAllCalculated := false },
   [{ timestamp := t, rangeBin := -1, state := PrState.absence }])

/-- Accumulator of the macro compare loop (lines 632-664): the fields of the
context it updates, plus the local `hit` flag. -/
structure MacroScan where
  maxMacroScore : ℚ
  maxMacroIdx : ℤ
  ts : List ℕ
  conf : List ℚ
  hit : Bool
deriving DecidableEq, Repr

/-- One iteration of the macro compare loop for range bin `i`. -/
def macroScanStep (mag : ℚ × ℚ → ℚ) (cfg : PConfig)
    (cur last : List (ℚ × ℚ)) (t : ℕ) (a : MacroScan) (i : ℤ) : MacroScan :=
  let d := csub (getC cur i) (getC last i)
  let m0 := mag d * range_intensity_win i
  let m := if cfg.macroFftBandpassFilterEnabled then
      m0 * ((0.5 : ℚ) / (0.45 : ℚ)) else m0
  let a1 := if a.maxMacroScore ≤ m then { a with maxMacroScore := m, maxMacroIdx := i }
            else a
  if cfg.macroThreshold ≤ m then
    { a1 with hit := true
              ts := setTs a1.ts i (t + cfg.macroMovementValidityMs)
              conf := setQ a1.conf i (m - cfg.macroThreshold) }
  else a1

/-- The macro compare loop over `[min_range_bin, max_range_bin]`. -/
def macroScan (mag : ℚ × ℚ → ℚ) (cfg : PConfig)
    (cur last : List (ℚ × ℚ)) (t : ℕ) (a : MacroScan) : MacroScan :=
  (binRange cfg).foldl (macroScanStep mag cfg cur last t) a

/-- Number of range bins whose macro timestamp is still valid at `t`
(`macro_movement_detect_range`, lines 688-695). -/
def macroDetectCount (cfg : PConfig) (ts : List ℕ) (t : ℕ) : ℤ :=
  ((binRange cfg).countP (fun i => decide (t ≤ getTs ts i)) : ℤ)

/-- `macro_movement_idx` computation (lines 684-714): `-1` unless the hit
count reaches the confirmation threshold and either enough bins are hot or
the detector is already out of absence; then the first (smallest) hot bin. -/
def macroMovementIdx (cfg : PConfig) (st : PrState) (hitCount : ℤ)
    (ts : List ℕ) (t : ℕ) : ℤ :=
  if cfg.macroMovementConfirmations ≤ hitCount then
    if cfg.macroTriggerRange ≤ macroDetectCount cfg ts t ∨
       st ≠ PrState.absence then
      match findFirst (fun i => decide (t ≤ getTs ts i)) (binRange cfg) with
      | some i => i
      | none => -1
    else -1
  else -1

/-- `micro_detect_timestamps` priming on a macro drop (lines 753-763): bins
at or beyond the previously reported macro bin get `now + validity`, bins
below get `0`. -/
def primeMicroTs (cfg : PConfig) (oldMacroReported : ℤ) (t : ℕ)
    (ts : List ℕ) : List ℕ :=
  (binRange cfg).foldl
    (fun acc i =>
      setTs acc i (if oldMacroReported ≤ i then
          t + cfg.microMovementValidityMs else 0))
    ts

/-- Result of the macro phase: updated context, emitted events, and the two
observations `compareEvaluated` (did the compare loop of lines 632-664 run)
and `macroHit` (the local `hit` flag at the end of the phase). -/
structure MacroOut where
  s : PState
  events : List PEvent
  compareEvaluated : Bool
  macroHit : Bool

/-- The reporting tail of the macro phase (lines 717-768): compare the new
`macro_movement_idx` with the previous one and emit / transition.  `s1` is
the context with the compare-loop updates already applied,
`oldMacroReported` the value `last_macro_reported_idx` had on entry (the
code reads it at line 760 before overwriting it at line 767). -/
def macroReportStep (s1 : PState) (oldMacroReported : ℤ) (t : ℕ)
    (idx : ℤ) : PState × List PEvent :=
  if idx ≠ oldMacroReported then
    if 0 ≤ idx then
      ({ s1 with state := PrState.macroPresence,
                 lastReportedIdx := idx,
                 lastMacroReportedIdx := idx },
       [{ timestamp := getTs s1.macroDetectTimestamps idx -
                       s1.config.macroMovementValidityMs,
          rangeBin := idx, state := PrState.macroPresence }])
    else
      let dropped : PState × List PEvent :=
        if s1.config.mode = PMode.macroOnly then
          switch_to_absence s1 t
        else
          ({ s1 with state := PrState.microPresence,
                     lastMicroReportedIdx := -1,
                     microDetectTimestamps :=
                       primeMicroTs s1.config oldMacroReported t
                         s1.microDetectTimestamps }, [])
      ({ dropped.1 with microFftCalcColIdx := s1.config.minRangeBin,
                        lastMacroReportedIdx := idx },
       dropped.2)
  else (s1, [])

/-- The macro-movement phase of `process_frame` (lines 624-769). -/
def macroPhase (mag : ℚ × ℚ → ℚ) (s : PState) (t : ℕ)
    (macroBuf : List (ℚ × ℚ)) : MacroOut :=
  if s.config.mode ≠ PMode.microOnly ∧
     s.macroLastCompareMs + s.config.macroCompareIntervalMs < t ∧
     s.bandpassInitialTimeMs < t then
    let inner : Bool :=
      decide (t < s.macroLastCompareMs + 2 * s.config.macroCompareIntervalMs)
    let sc : MacroScan :=
      if inner then
        macroScan mag s.config macroBuf s.lastMacroCompare t
          { maxMacroScore := s.maxMacroScore, maxMacroIdx := s.maxMacroIdx,
            ts := s.macroDetectTimestamps, conf := s.macroDetectConfidences,
            hit := false }
      else
        { maxMacroScore := s.maxMacroScore, maxMacroIdx := s.maxMacroIdx,
          ts := s.macroDetectTimestamps, conf := s.macroDetectConfidences,
          hit := false }
    let hitCount := if sc.hit then s.macroMovementHitCount + 1 else 0
    let idx := macroMovementIdx s.config s.state hitCount sc.ts t
    let s1 := { s with
      maxMacroScore := sc.maxMacroScore, maxMacroIdx := sc.maxMacroIdx,
      macroDetectTimestamps := sc.ts, macroDetectConfidences := sc.conf,
      macroMovementHitCount := hitCount,
      lastMacroCompare := macroBuf,
      macroLastCompareMs := t }
    let r := macroReportStep s1 s.lastMacroReportedIdx t idx
    ⟨r.1, r.2, inner, sc.hit⟩
  else
    ⟨s, [], false, false⟩

/-- The history-ring bookkeeping (lines 771-834): the decimation carry index
and the ring write row; ring contents are consumed only by the abstracted
Doppler FFT and are not tracked. -/
def ringPhase (s : PState) : PState :=
  let s1 :=
    if s.config.microFftDecimationEnabled then
      let d := s.microFftDecimationWriteRowIdx + 1
      if d = decimationFactor then
        { s with microFftDecimationWriteRowIdx := 0,
                 microFftWriteRowIdx := s.microFftWriteRowIdx + 1 }
      else
        { s with microFftDecimationWriteRowIdx := d }
    else
      { s with microFftWriteRowIdx := s.microFftWriteRowIdx + 1 }
  if s1.microFftWriteRowIdx = s.config.microFftSize then
    { s1 with microFftCalcReady := true,
              microFftWriteRowIdx := 0,
              microFftCalcColIdx := s.config.minRangeBin }
  else s1

/-- The micro Doppler-FFT phase (lines 846-904), with the FFT output column
supplied as the oracle input `dopplerOut`. -/
def microFftPhase (mag : ℚ × ℚ → ℚ) (s : PState) (t : ℕ)
    (dopplerOut : List (ℚ × ℚ)) : PState :=
  if s.microFftCalcReady then
    let speed :=
      ((intRange 1 s.config.microMovementCompareIdx.toNat).map
        (fun i => mag (getC dopplerOut i))).sum
    let s1 := if s.maxMicro < speed then
        { s with maxMicro := speed, maxMicroIdx := s.microFftCalcColIdx }
      else s
    let conf := speed - s.config.microThreshold
    let s2 := if 0 ≤ conf then
        { s1 with
          microDetectTimestamps :=
            setTs s1.microDetectTimestamps s1.microFftCalcColIdx
              (t + s.config.microMovementValidityMs),
          microDetectDistances :=
            setQ s1.microDetectDistances s1.microFftCalcColIdx conf,
          state := PrState.microPresence }
      else s1
    let c := s2.microFftCalcColIdx + 1
    if s.config.maxRangeBin < c then
      { s2 with microFftCalcColIdx := s.config.minRangeBin,
                microFftAllCalculated := true }
    else
      { s2 with microFftCalcColIdx := c }
  else s

/-- Micro-bin selection when decimation is enabled (lines 907-955). -/
def microSelectDecim (s : PState) (t : ℕ) : ℤ :=
  let allPrevExpired :=
    (intRange s.config.minRangeBin
        (s.lastReportedIdx - s.config.minRangeBin + 1).toNat).all
      (fun i => decide (getTs s.macroDetectTimestamps i < t))
  let beyond :=
    if allPrevExpired then
      findFirst (fun i => decide (t ≤ getTs s.macroDetectTimestamps i))
        (intRange (s.lastReportedIdx + 1)
          (s.config.maxRangeBin - s.lastReportedIdx).toNat)
    else none
  match beyond with
  | some i => i
  | none =>
    if t ≤ getTs s.microDetectTimestamps s.lastReportedIdx then
      s.lastReportedIdx
    else if s.microFftAllCalculated then
      ((binRange s.config).foldl
        (fun (acc : ℤ × ℚ) i =>
          if t ≤ getTs s.microDetectTimestamps i ∧
             acc.2 < getQ s.microDetectDistances i ∧
             2000 < getTs s.microDetectTimestamps i -
                    getTs s.microDetectTimestamps s.lastReportedIdx then
            (i, getQ s.microDetectDistances i)
          else acc)
        (-1, 0)).1
    else -1

/-- Micro-bin selection when decimation is disabled (lines 957-969): the
smallest bin in `[min_range_bin, max_range_bin]` whose micro timestamp is
still valid. -/
def microSelectPlain (s : PState) (t : ℕ) : ℤ :=
  match findFirst (fun i => decide (t ≤ getTs s.microDetectTimestamps i))
      (binRange s.config) with
  | some i => i
  | none => -1

/-- Micro movement reporting (lines 972-990). -/
def microReport (s : PState) (idx : ℤ) : PState × List PEvent :=
  if idx ≠ s.lastMicroReportedIdx then
    let s1 := { s with lastMicroReportedIdx := idx }
    if 0 ≤ idx then
      ({ s1 with lastReportedIdx := idx },
       [{ timestamp := getTs s.microDetectTimestamps idx -
                       s.config.microMovementValidityMs,
          rangeBin := idx, state := PrState.microPresence }])
    else (s1, [])
  else (s, [])

/-- Absence reporting (lines 993-998). -/
def absencePhase (s : PState) (t : ℕ) (idx : ℤ) : PState × List PEvent :=
  if idx = -1 ∧ s.state = PrState.microPresence ∧ s.microFftAllCalculated then
    switch_to_absence s t
  else (s, [])

/-- Result of one call to `process_frame`: the new context, the events the
callback received in order, and three observations of the execution:
`compareEvaluated` - the compare loop of lines 632-664 ran;
`macroHit` - the local `hit` flag was set;
`microSelReadIdx` - `some i` when the selection step with decimation enabled
was reached, recording the index `i = last_reported_idx` with which line 932
reads `micro_detect_timestamps[i]`. -/
structure ProcOut where
  newState : PState
  events : List PEvent
  compareEvaluated : Bool
  macroHit : Bool
  microSelReadIdx : Option ℤ

/-- Lines 554-577: the bandpass state (re)initialisation.  The FIR state
reset itself acts only on untracked filter state; the observable effect is
setting `bandpass_initial_time_ms = time_ms + RADAR_PRESENCE_BANDPASS_DELAY`
whenever it is `0` (note the surrounding `if (bandpass_filter_enabled)` is
commented out in the source, so this happens in every mode). -/
def preparedState (s : PState) (t : ℕ) : PState :=
  { s with bandpassInitialTimeMs :=
      if s.bandpassInitialTimeMs = 0 then t + bandpassDelay
      else s.bandpassInitialTimeMs }

/-- Lines 613-619: first-frame initialisation of `last_macro_compare`. -/
def initCompare (s : PState) (macroBuf : List (ℚ × ℚ)) : PState :=
  if s.macroLastCompareInit = false then
    { s with lastMacroCompare := macroBuf, macroLastCompareInit := true }
  else s

/-- The micro track tail of `process_frame` (lines 846-998): Doppler-FFT
step, micro-bin selection, micro reporting and absence reporting.  Returns
the new context, the emitted events, and the `microSelReadIdx`
observation. -/
def microTrack (mag : ℚ × ℚ → ℚ) (s2 : PState) (t : ℕ)
    (dop : List (ℚ × ℚ)) : PState × List PEvent × Option ℤ :=
  let s3 := microFftPhase mag s2 t dop
  let idx := if s3.config.microFftDecimationEnabled then
      microSelectDecim s3 t else microSelectPlain s3 t
  let rep := microReport s3 idx
  let abs2 := absencePhase rep.1 t idx
  (abs2.1, rep.2 ++ abs2.2,
   if s3.config.microFftDecimationEnabled then some s3.lastReportedIdx
   else none)

/-- `xensiv_radar_presence_process_frame` (lines 500-1001), with the outputs
of the external DSP stages supplied through `inp` and `cabsf` through `mag`.
The model always delivers events (a registered callback). -/
def xensiv_radar_presence_process_frame (mag : ℚ × ℚ → ℚ) (s : PState)
    (t : ℕ) (inp : FrameInput) : ProcOut :=
  let s0 := preparedState s t
  let macroBuf := if s.config.macroFftBandpassFilterEnabled then
      inp.bpSpectrum else inp.spectrum
  let s1 := initCompare s0 macroBuf
  let mo := macroPhase mag s1 t macroBuf
  let s2 := ringPhase mo.s
  if s2.config.mode = PMode.macroOnly ∨
     (s2.config.mode = PMode.microIfMacro ∧
      (s2.state = PrState.absence ∨ s2.state = PrState.macroPresence)) then
    ⟨s2, mo.events, mo.compareEvaluated, mo.macroHit, none⟩
  else
    let mt := microTrack mag s2 t inp.dopplerOut
    ⟨mt.1, mo.events ++ mt.2.1, mo.compareEvaluated, mo.macroHit, mt.2.2⟩

/-- Run a sequence of `process_frame` calls, pairing each emitted event with
the `time_ms` of the call that emitted it. -/
def runFrames (mag : ℚ × ℚ → ℚ) :
    PState → List (ℕ × FrameInput) → PState × List (ℕ × PEvent)
  | s, [] => (s, [])
  | s, (t, inp) :: rest =>
    let o := xensiv_radar_presence_process_frame mag s t inp
    let r := runFrames mag o.newState rest
    (r.1, o.events.map (fun e => (t, e)) ++ r.2)


/-- Concrete stand-in for the external `cabsf` used by the concrete
executions in this file.  It agrees with the complex magnitude on
axis-aligned values (`|(a, 0)| = |a|`, `|(0, b)| = |b|`), and every concrete
execution below feeds it axis-aligned values only, so those executions
compute the same numbers the real library computes. -/
def cabsAxis (z : ℚ × ℚ) : ℚ :=
  if z.2 = 0 then |z.1| else if z.1 = 0 then |z.2| else 0

/-!
The range + angle-of-arrival analyzer, `angle_range_compute` in
`source/angle_range.c` (the active implementation after the `#if 0` block).
`NUM_SAMPLES_PER_CHIRP = 128`, `NUM_RX_ANTENNAS = 3`,
`NUM_CHIRPS_PER_FRAME = 16`.  The input frame is the flat float array with
layout `[chirp][sample][antenna][I,Q]`, modelled as an index function
`ℕ → ℚ`; the external `arm_cfft_f32` is a function parameter `cfft` applied
to each antenna's mean-removed average chirp.  The downstream outputs
computed only after the validity decision (`range_m`, the two angles via
`atan2f`/`asinf`, and `peak_power_db = 10*log10(peak_mag)`) are
transcendental; the model keeps the exact peak data (`peakMag`, `peakBin`)
from which they are derived instead.
-/

/-- `build_average_chirp` (lines 262-303): coherent sum of the 16 chirps,
scaled by `1/16`.  `chirp_stride = 128*3*2 = 768`,
`sample_stride = 3*2 = 6`. -/
def build_average_chirp (frame : ℕ → ℚ) (ant samp : ℕ) : ℚ × ℚ :=
  let sums := (List.range 16).foldl
    (fun (acc : ℚ × ℚ) chirp =>
      (acc.1 + frame (chirp * 768 + samp * 6 + ant * 2),
       acc.2 + frame (chirp * 768 + samp * 6 + ant * 2 + 1)))
    (0, 0)
  (sums.1 * (1 / 16), sums.2 * (1 / 16))

/-- Mean of an antenna's averaged chirp (lines 338-348). -/
def aoaMean (frame : ℕ → ℚ) (ant : ℕ) : ℚ × ℚ :=
  let s := (List.range 128).foldl
    (fun (acc : ℚ × ℚ) samp =>
      (acc.1 + (build_average_chirp frame ant samp).1,
       acc.2 + (build_average_chirp frame ant samp).2))
    (0, 0)
  (s.1 / 128, s.2 / 128)

/-- The mean-removed averaged chirp (lines 350-355), the input handed to
`arm_cfft_f32`. -/
def aoaMeanRemoved (frame : ℕ → ℚ) (ant : ℕ) (samp : ℕ) : ℚ × ℚ :=
  csub (build_average_chirp frame ant samp) (aoaMean frame ant)

/-- Squared magnitude `re*re + im*im` used by the peak search (line 363). -/
def mag2 (z : ℚ × ℚ) : ℚ := z.1 * z.1 + z.2 * z.2

/-- One iteration of the peak search loop (lines 359-370): strict-greater
update of `(peak_mag, peak_bin)`. -/
def peakStep (g : ℕ → ℚ) (a : ℚ × ℕ) (bin : ℕ) : ℚ × ℕ :=
  if a.1 < g bin then (g bin, bin) else a

/-- Peak search over bins `1 .. 63` of antenna 0 (lines 359-370); returns
`(peak_mag, peak_bin)` starting from `(0, 0)`. -/
def peakSearch (spec : ℕ → ℚ × ℚ) : ℚ × ℕ :=
  (List.range' 1 63).foldl (peakStep (fun bin => mag2 (spec bin))) (0, 0)

/-- Result of `angle_range_compute` restricted to the exact fields (see the
block comment above). -/
structure AoaResult where
  valid : Bool
  peakMag : ℚ
  peakBin : ℕ
deriving DecidableEq, Repr

/-- `angle_range_compute` (lines 318-419): averaged chirp, mean removal,
per-antenna FFT (`cfft`), peak search on antenna 0, and the validity
decision `!(peak_mag <= 0 || peak_bin == 0)` of lines 372-376. -/
def angle_range_compute (cfft : (ℕ → ℚ × ℚ) → ℕ → ℚ × ℚ)
    (frame : ℕ → ℚ) : AoaResult :=
  let p := peakSearch (cfft (aoaMeanRemoved frame 0))
  if p.1 ≤ 0 ∨ p.2 = 0 then
    { valid := false, peakMag := p.1, peakBin := p.2 }
  else
    { valid := true, peakMag := p.1, peakBin := p.2 }

/-!
Concrete configurations, inputs and execution traces used by the
counterexamples and witnesses below.  Every spectrum / Doppler value is
axis-aligned so that `cabsAxis` computes the exact `cabsf` values, and every
oracle input is realizable by the real DSP stages (justified at each
definition).
-/

/-- A zero range spectrum for the default `num_samples_per_chirp = 128`
(`macro_fft_size = 64`); the range FFT of an all-zero frame. -/
def zSpec64 : List (ℚ × ℚ) := List.replicate 64 (0, 0)

/-- A zero range spectrum for `num_samples_per_chirp = 32`. -/
def zSpec16 : List (ℚ × ℚ) := List.replicate 16 (0, 0)

/-- All-zero oracle inputs for default-sized frames. -/
def inpZ64 : FrameInput :=
  { spectrum := zSpec64, bpSpectrum := zSpec64, dopplerOut := [] }

/-- An input whose range FFT has an isolated return `(100, 0)` in bin 1
(realizable: feed a frame whose first-range-bin component has that
amplitude). -/
def spikeInp64 : FrameInput :=
  { spectrum := zSpec64.set 1 (100, 0), bpSpectrum := zSpec64,
    dopplerOut := [] }

/-- Like `spikeInp64` but with the return on the bandpass-filtered buffer,
for a bandpass-enabled configuration. -/
def spikeBpInp64 : FrameInput :=
  { spectrum := zSpec64, bpSpectrum := zSpec64.set 1 (100, 0),
    dopplerOut := [] }

/-- C1: default configuration with decimation enabled, mode `MICRO_ONLY`. -/
def c1Cfg : PConfig :=
  { xensiv_radar_presence_init_config with
    microFftDecimationEnabled := true, mode := PMode.microOnly }

/-- C1: a freshly allocated detector for `c1Cfg`. -/
def c1State : PState := xensiv_radar_presence_alloc c1Cfg

/-- C2 / C1-witness: detector state after two zero frames at 0 ms and
600 ms (default configuration): `macro_last_compare_ms = 600`,
`bandpass_initial_time_ms = 490`. -/
def twoFrameState : PState :=
  (runFrames cabsAxis
    (xensiv_radar_presence_alloc xensiv_radar_presence_init_config)
    [(0, inpZ64), (600, inpZ64)]).1

/-- C3-witness: default configuration with the bandpass filter enabled. -/
def c3Cfg : PConfig :=
  { xensiv_radar_presence_init_config with
    macroFftBandpassFilterEnabled := true }

/-- C4-witness: macro detect timestamps with bins 2 and 3 hot at 500 ms. -/
def c4Ts : List ℕ := [0, 0, 1000, 1000, 0, 0]

/-- C5: allocation-time configuration (`num_samples_per_chirp = 32`,
`micro_fft_size = 16`; both supported CMSIS FFT lengths). -/
def c5AllocCfg : PConfig :=
  { xensiv_radar_presence_init_config with
    numSamplesPerChirp := 32, microFftSize := 16 }

/-- C5: run-time configuration installed through `set_config`:
`micro_fft_size = 2` (allowed: `set_config` only checks it against the
allocation-time value), decimation enabled, mode `MICRO_AND_MACRO`. -/
def c5RunCfg : PConfig :=
  { c5AllocCfg with
    microFftSize := 2, microFftDecimationEnabled := true,
    mode := PMode.microAndMacro }

/-- C5: detector allocated with `c5AllocCfg` and reconfigured with
`c5RunCfg`. -/
def c5s0 : PState :=
  (xensiv_radar_presence_set_config (xensiv_radar_presence_alloc c5AllocCfg)
    c5RunCfg).2

/-- C5: an input whose range FFT has a return `(100, 0)` in bin 2. -/
def spike2Spec : List (ℚ × ℚ) := zSpec16.set 2 (100, 0)

/-- C5: a Doppler-FFT output column whose low bins sum to exactly the
default `micro_threshold = 25`.  Realizable: the scanned ring column is a
function (through the decimating FIR) of the bin-5 slow-time samples of the
preceding frames, which are free inputs; the Doppler spectrum of a zero-mean
column can be any vector with DC bin 0, and scaling the column scales the
low-bin magnitude sum continuously, so it can be made to hit 25 exactly. -/
def dHit : List (ℚ × ℚ) := [(0, 0), (5, 0), (5, 0), (5, 0), (5, 0), (5, 0)]

/-- C5: the call sequence: frames every 300 ms from 10 ms; all zero except
call 19 (the 20th), which carries the bin-2 macro return and the hot
Doppler column. -/
def c5Input (k : ℕ) : ℕ × FrameInput :=
  (10 + 300 * k,
   { spectrum := if k = 19 then spike2Spec else zSpec16,
     bpSpectrum := zSpec16,
     dopplerOut := if k = 19 then dHit else [] })

/-- C5: the state after the 19-call prefix (ring full, column scan at the
last bin 5, state still `ABSENCE`, no event emitted yet). -/
def c5sPre : PState :=
  (runFrames cabsAxis c5s0 ((List.range 19).map c5Input)).1

/-- C6: default configuration with decimation enabled, mode `MICRO_ONLY`. -/
def c6Cfg : PConfig :=
  { xensiv_radar_presence_init_config with
    microFftDecimationEnabled := true, mode := PMode.microOnly }

/-- C6: a freshly allocated detector for `c6Cfg`. -/
def c6State : PState := xensiv_radar_presence_alloc c6Cfg

/-- C7: default configuration with `macro_threshold = 0` and
`macro_compare_interval_ms = 500`. -/
def c7Cfg : PConfig :=
  { xensiv_radar_presence_init_config with
    macroThreshold := 0, macroCompareIntervalMs := 500 }

/-- C7: the state after feeding the zero frame at t = 1 ms. -/
def c7s1 : PState :=
  (xensiv_radar_presence_process_frame cabsAxis
    (xensiv_radar_presence_alloc c7Cfg) 1 inpZ64).newState

/-- C7-witness: as `c7Cfg` but with the default threshold 1. -/
def c7bCfg : PConfig :=
  { xensiv_radar_presence_init_config with macroCompareIntervalMs := 500 }

/-- C7-witness: the state after feeding the zero frame at t = 1 ms. -/
def c7bs1 : PState :=
  (xensiv_radar_presence_process_frame cabsAxis
    (xensiv_radar_presence_alloc c7bCfg) 1 inpZ64).newState

/-- C8: a freshly allocated detector with the default configuration
(`max_micro_fft_size = 128`). -/
def c8State : PState :=
  xensiv_radar_presence_alloc xensiv_radar_presence_init_config

/-- C8: a reconfiguration request with `micro_fft_size = 256` above the
allocation-time 128. -/
def c8BadCfg : PConfig :=
  { xensiv_radar_presence_init_config with microFftSize := 256 }

/-- C9: allocation with bandwidth 2000 MHz: `Δd ≈ 0.0749 m`, so
`max_range_limit_idx = 66 > 64 = N/2`. -/
def c9AllocCfg : PConfig :=
  { xensiv_radar_presence_init_config with bandwidth := 2000000000 }

/-- C9: a freshly allocated detector for `c9AllocCfg`. -/
def c9State : PState := xensiv_radar_presence_alloc c9AllocCfg

/-- C9: a reconfiguration request with `min_range_bin = 5 > 3 =
max_range_bin` (both below `max_range_limit_idx`, so neither is clamped). -/
def c9ReqCfg : PConfig :=
  { xensiv_radar_presence_init_config with minRangeBin := 5, maxRangeBin := 3 }

/-- C10: the all-zero input frame. -/
def zeroFrame : ℕ → ℚ := fun _ => 0

/-- C10: a spectrum with a single tiny return in bin 1:
`peak_mag = 1e-4`, i.e. `peak_power_db = -40 < -30`.  Realizable: a frame
with a faint bin-1 return of amplitude 0.01 (any frame maps to it under the
inverse FFT; its DC bin is 0 as mean removal requires). -/
def tinySpec : ℕ → ℚ × ℚ := fun b => if b = 1 then (1 / 100, 0) else (0, 0)

/-- C10: an oracle FFT returning `tinySpec` for the counterexample's frame. -/
def tinyCfft : (ℕ → ℚ × ℚ) → ℕ → ℚ × ℚ := fun _ => tinySpec

/-! General lemmas about the loop-index lists and the first-match search. -/

theorem mem_intRange {a x : ℤ} {n : ℕ} :
    x ∈ intRange a n ↔ a ≤ x ∧ x < a + n := by
  induction n generalizing a with
  | zero => simp [intRange]
  | succ n ih =>
    simp only [intRange, List.mem_cons, ih]
    omega

theorem mem_binRange {c : PConfig} {x : ℤ} :
    x ∈ binRange c ↔ c.minRangeBin ≤ x ∧ x ≤ c.maxRangeBin := by
  unfold binRange
  rw [mem_intRange]
  omega

theorem intRange_pairwise (a : ℤ) (n : ℕ) :
    (intRange a n).Pairwise (· ≤ ·) := by
  induction n generalizing a with
  | zero => exact List.Pairwise.nil
  | succ n ih =>
    refine List.Pairwise.cons (fun b hb => ?_) (ih (a + 1))
    have := mem_intRange.mp hb
    omega

theorem binRange_pairwise (c : PConfig) : (binRange c).Pairwise (· ≤ ·) :=
  intRange_pairwise _ _

theorem findFirst_eq_some {p : ℤ → Bool} {l : List ℤ} {a : ℤ}
    (h : findFirst p l = some a) : a ∈ l ∧ p a = true := by
  induction l with
  | nil => simp [findFirst] at h
  | cons i is ih =>
    by_cases hp : p i
    · simp [findFirst, hp] at h
      subst h
      exact ⟨List.mem_cons_self _ _, hp⟩
    · simp [findFirst, hp] at h
      rcases ih h with ⟨hm, hpa⟩
      exact ⟨List.mem_cons_of_mem _ hm, hpa⟩

theorem findFirst_min {p : ℤ → Bool} {l : List ℤ}
    (hs : l.Pairwise (· ≤ ·)) {a : ℤ} (h : findFirst p l = some a) :
    ∀ b ∈ l, p b = true → a ≤ b := by
  induction l with
  | nil => simp [findFirst] at h
  | cons i is ih =>
    intro b hb hpb
    by_cases hp : p i
    · simp [findFirst, hp] at h
      subst h
      rcases List.mem_cons.mp hb with hb | hb
      · exact le_of_eq hb.symm
      · exact (List.pairwise_cons.mp hs).1 b hb
    · simp [findFirst, hp] at h
      rcases List.mem_cons.mp hb with hb | hb
      · subst hb; simp [hp] at hpb
      · exact ih (List.pairwise_cons.mp hs).2 h b hb hpb

theorem findFirst_eq_none {p : ℤ → Bool} {l : List ℤ}
    (h : findFirst p l = none) : ∀ b ∈ l, p b = false := by
  induction l with
  | nil => simp
  | cons i is ih =>
    intro b hb
    by_cases hp : p i
    · simp [findFirst, hp] at h
    · simp [findFirst, hp] at h
      rcases List.mem_cons.mp hb with hb | hb
      · subst hb; simpa using hp
      · exact ih h b hb

/-! Per-phase facts used by the universal theorems: the phases preserve the
configuration and the bandpass warm-up deadline, and the events a phase can
emit are characterized. -/

theorem switch_to_absence_config (s : PState) (t : ℕ) :
    (switch_to_absence s t).1.config = s.config := rfl

theorem ringPhase_config (s : PState) : (ringPhase s).config = s.config := by
  unfold ringPhase
  dsimp only
  split_ifs <;> rfl

theorem ringPhase_bp (s : PState) :
    (ringPhase s).bandpassInitialTimeMs = s.bandpassInitialTimeMs := by
  unfold ringPhase
  dsimp only
  split_ifs <;> rfl

theorem ringPhase_mode (s : PState) : (ringPhase s).config.mode = s.config.mode := by
  rw [ringPhase_config]

theorem microFftPhase_config (mag : ℚ × ℚ → ℚ) (s : PState) (t : ℕ)
    (dop : List (ℚ × ℚ)) : (microFftPhase mag s t dop).config = s.config := by
  unfold microFftPhase
  dsimp only
  split_ifs <;> rfl

theorem microFftPhase_bp (mag : ℚ × ℚ → ℚ) (s : PState) (t : ℕ)
    (dop : List (ℚ × ℚ)) :
    (microFftPhase mag s t dop).bandpassInitialTimeMs =
      s.bandpassInitialTimeMs := by
  unfold microFftPhase
  dsimp only
  split_ifs <;> rfl

theorem microReport_config (s : PState) (idx : ℤ) :
    (microReport s idx).1.config = s.config := by
  unfold microReport
  split_ifs <;> rfl

theorem microReport_bp (s : PState) (idx : ℤ) :
    (microReport s idx).1.bandpassInitialTimeMs = s.bandpassInitialTimeMs := by
  unfold microReport
  split_ifs <;> rfl

theorem absencePhase_config (s : PState) (t : ℕ) (idx : ℤ) :
    (absencePhase s t idx).1.config = s.config := by
  unfold absencePhase
  split_ifs <;> rfl

theorem absencePhase_bp (s : PState) (t : ℕ) (idx : ℤ) :
    (absencePhase s t idx).1.bandpassInitialTimeMs =
      s.bandpassInitialTimeMs := by
  unfold absencePhase
  split_ifs <;> rfl

theorem macroMovementIdx_mem {cfg : PConfig} {st : PrState} {hc : ℤ}
    {ts : List ℕ} {t : ℕ} (h : 0 ≤ macroMovementIdx cfg st hc ts t) :
    macroMovementIdx cfg st hc ts t ∈ binRange cfg := by
  unfold macroMovementIdx at h ⊢
  split_ifs at h ⊢ with h1 h2
  · cases hf : findFirst (fun i => decide (t ≤ getTs ts i)) (binRange cfg) with
    | some i =>
      exact (findFirst_eq_some hf).1
    | none =>
      rw [hf] at h
      exact absurd (show (0 : ℤ) ≤ -1 from h) (by decide)
  · omega
  · omega

theorem macroReportStep_config (s1 : PState) (old : ℤ) (t : ℕ) (idx : ℤ) :
    (macroReportStep s1 old t idx).1.config = s1.config := by
  unfold macroReportStep switch_to_absence
  dsimp only
  split_ifs <;> rfl

theorem macroReportStep_bp (s1 : PState) (old : ℤ) (t : ℕ) (idx : ℤ) :
    (macroReportStep s1 old t idx).1.bandpassInitialTimeMs =
      s1.bandpassInitialTimeMs := by
  unfold macroReportStep switch_to_absence
  dsimp only
  split_ifs <;> rfl

theorem macroReportStep_events (s1 : PState) (old : ℤ) (t : ℕ) (idx : ℤ) :
    ∀ e ∈ (macroReportStep s1 old t idx).2,
      (e.state = PrState.macroPresence ∧ e.rangeBin = idx ∧ 0 ≤ idx) ∨
      (e.state = PrState.absence ∧ e.rangeBin = -1) := by
  intro e he
  unfold macroReportStep switch_to_absence at he
  dsimp only at he
  split_ifs at he with h1 h2 h3 <;>
    simp only [List.mem_singleton, List.not_mem_nil] at he
  · subst he
    exact Or.inl ⟨rfl, rfl, h2⟩
  · subst he
    exact Or.inr ⟨rfl, rfl⟩

theorem macroReportStep_len (s1 : PState) (old : ℤ) (t : ℕ) (idx : ℤ) :
    (macroReportStep s1 old t idx).2.length ≤ 1 := by
  unfold macroReportStep switch_to_absence
  dsimp only
  split_ifs <;> simp

theorem macroPhase_config (mag : ℚ × ℚ → ℚ) (s : PState) (t : ℕ)
    (buf : List (ℚ × ℚ)) : (macroPhase mag s t buf).s.config = s.config := by
  unfold macroPhase
  dsimp only
  split
  · rw [macroReportStep_config]
  · rfl

theorem macroPhase_bp (mag : ℚ × ℚ → ℚ) (s : PState) (t : ℕ)
    (buf : List (ℚ × ℚ)) :
    (macroPhase mag s t buf).s.bandpassInitialTimeMs =
      s.bandpassInitialTimeMs := by
  unfold macroPhase
  dsimp only
  split
  · rw [macroReportStep_bp]
  · rfl

theorem macroPhase_events (mag : ℚ × ℚ → ℚ) (s : PState) (t : ℕ)
    (buf : List (ℚ × ℚ)) :
    ∀ e ∈ (macroPhase mag s t buf).events,
      (e.state = PrState.macroPresence ∧ s.bandpassInitialTimeMs < t ∧
        e.rangeBin ∈ binRange s.config) ∨
      (e.state = PrState.absence ∧ e.rangeBin = -1) := by
  intro e he
  unfold macroPhase at he
  dsimp only at he
  split at he
  case isTrue h =>
    rcases macroReportStep_events _ _ _ _ e he with hm | ha
    · refine Or.inl ⟨hm.1, h.2.2, ?_⟩
      rw [hm.2.1]
      exact macroMovementIdx_mem (by simpa [hm.2.1] using hm.2.2)
    · exact Or.inr ha
  case isFalse h =>
    simp at he

theorem macroPhase_events_len (mag : ℚ × ℚ → ℚ) (s : PState) (t : ℕ)
    (buf : List (ℚ × ℚ)) : (macroPhase mag s t buf).events.length ≤ 1 := by
  unfold macroPhase
  dsimp only
  split
  · exact macroReportStep_len _ _ _ _
  · simp

theorem preparedState_config (s : PState) (t : ℕ) :
    (preparedState s t).config = s.config := rfl

theorem preparedState_bp (s : PState) (t : ℕ) :
    (preparedState s t).bandpassInitialTimeMs =
      (if s.bandpassInitialTimeMs = 0 then t + bandpassDelay
       else s.bandpassInitialTimeMs) := rfl

theorem initCompare_config (s : PState) (buf : List (ℚ × ℚ)) :
    (initCompare s buf).config = s.config := by
  unfold initCompare
  split_ifs <;> rfl

theorem initCompare_bp (s : PState) (buf : List (ℚ × ℚ)) :
    (initCompare s buf).bandpassInitialTimeMs = s.bandpassInitialTimeMs := by
  unfold initCompare
  split_ifs <;> rfl

theorem initCompare_lastCompareMs (s : PState) (buf : List (ℚ × ℚ)) :
    (initCompare s buf).macroLastCompareMs = s.macroLastCompareMs := by
  unfold initCompare
  split_ifs <;> rfl

theorem microReport_events (s : PState) (idx : ℤ) :
    ∀ e ∈ (microReport s idx).2,
      e.state = PrState.microPresence ∧ e.rangeBin = idx ∧ 0 ≤ idx := by
  intro e he
  unfold microReport at he
  try dsimp only at he
  split_ifs at he with h1 h2 <;>
    simp only [List.mem_singleton, List.not_mem_nil] at he
  subst he
  exact ⟨rfl, rfl, h2⟩

theorem microReport_len (s : PState) (idx : ℤ) :
    (microReport s idx).2.length ≤ 1 := by
  unfold microReport
  try dsimp only
  split_ifs <;> simp

theorem absencePhase_events (s : PState) (t : ℕ) (idx : ℤ) :
    ∀ e ∈ (absencePhase s t idx).2,
      e.state = PrState.absence ∧ e.rangeBin = -1 := by
  intro e he
  unfold absencePhase switch_to_absence at he
  try dsimp only at he
  split_ifs at he with h1 <;>
    simp only [List.mem_singleton, List.not_mem_nil] at he
  subst he
  exact ⟨rfl, rfl⟩

theorem absencePhase_len (s : PState) (t : ℕ) (idx : ℤ) :
    (absencePhase s t idx).2.length ≤ 1 := by
  unfold absencePhase switch_to_absence
  try dsimp only
  split_ifs <;> simp

theorem microReport_absence_excl (s s' : PState) (t : ℕ) (idx : ℤ)
    (h : (microReport s idx).2 ≠ []) : (absencePhase s' t idx).2 = [] := by
  unfold microReport at h
  try dsimp only at h
  unfold absencePhase
  try dsimp only
  split_ifs with h2
  · exfalso
    rcases h2 with ⟨h2, -, -⟩
    subst h2
    split_ifs at h with h3 h4
    · omega
    · exact h rfl
    · exact h rfl
  · rfl

theorem microSelectPlain_cases (s : PState) (t : ℕ) :
    microSelectPlain s t = -1 ∨ microSelectPlain s t ∈ binRange s.config := by
  unfold microSelectPlain
  cases hf : findFirst (fun i => decide (t ≤ getTs s.microDetectTimestamps i))
      (binRange s.config) with
  | some i => exact Or.inr (findFirst_eq_some hf).1
  | none => exact Or.inl rfl

theorem microTrack_config (mag : ℚ × ℚ → ℚ) (s2 : PState) (t : ℕ)
    (dop : List (ℚ × ℚ)) : (microTrack mag s2 t dop).1.config = s2.config := by
  unfold microTrack
  dsimp only
  rw [absencePhase_config, microReport_config, microFftPhase_config]

theorem microTrack_bp (mag : ℚ × ℚ → ℚ) (s2 : PState) (t : ℕ)
    (dop : List (ℚ × ℚ)) :
    (microTrack mag s2 t dop).1.bandpassInitialTimeMs =
      s2.bandpassInitialTimeMs := by
  unfold microTrack
  dsimp only
  rw [absencePhase_bp, microReport_bp, microFftPhase_bp]

theorem microTrack_events (mag : ℚ × ℚ → ℚ) (s2 : PState) (t : ℕ)
    (dop : List (ℚ × ℚ)) :
    ∀ e ∈ (microTrack mag s2 t dop).2.1,
      (e.state = PrState.microPresence ∧
        (s2.config.microFftDecimationEnabled = false →
          e.rangeBin ∈ binRange s2.config)) ∨
      (e.state = PrState.absence ∧ e.rangeBin = -1) := by
  intro e he
  unfold microTrack at he
  dsimp only at he
  rcases List.mem_append.mp he with hrep | habs
  · rcases microReport_events _ _ e hrep with ⟨h1, h2, h3⟩
    refine Or.inl ⟨h1, fun hdec => ?_⟩
    rw [microFftPhase_config mag s2 t dop, hdec] at h2 h3
    simp only [Bool.false_eq_true, if_false] at h2 h3
    rw [h2]
    rcases microSelectPlain_cases (microFftPhase mag s2 t dop) t with hsel | hsel
    · rw [hsel] at h3
      omega
    · rw [microFftPhase_config] at hsel
      exact hsel
  · exact Or.inr (absencePhase_events _ _ _ e habs)

theorem microTrack_len (mag : ℚ × ℚ → ℚ) (s2 : PState) (t : ℕ)
    (dop : List (ℚ × ℚ)) : (microTrack mag s2 t dop).2.1.length ≤ 1 := by
  unfold microTrack
  dsimp only
  rw [List.length_append]
  by_cases hrep : (microReport (microFftPhase mag s2 t dop)
      (if (microFftPhase mag s2 t dop).config.microFftDecimationEnabled = true
       then microSelectDecim (microFftPhase mag s2 t dop) t
       else microSelectPlain (microFftPhase mag s2 t dop) t)).2 = []
  · rw [hrep]
    simpa using absencePhase_len _ _ _
  · rw [microReport_absence_excl _ _ _ _ hrep]
    simpa using microReport_len _ _

theorem processFrame_config (mag : ℚ × ℚ → ℚ) (s : PState) (t : ℕ)
    (inp : FrameInput) :
    (xensiv_radar_presence_process_frame mag s t inp).newState.config =
      s.config := by
  unfold xensiv_radar_presence_process_frame
  dsimp only
  split_ifs <;>
    simp [microTrack_config, ringPhase_config, macroPhase_config,
      initCompare_config, preparedState_config]

theorem processFrame_bp (mag : ℚ × ℚ → ℚ) (s : PState) (t : ℕ)
    (inp : FrameInput) :
    (xensiv_radar_presence_process_frame mag s t inp).newState.bandpassInitialTimeMs =
      (if s.bandpassInitialTimeMs = 0 then t + bandpassDelay
       else s.bandpassInitialTimeMs) := by
  unfold xensiv_radar_presence_process_frame
  dsimp only
  split_ifs <;>
    simp [microTrack_bp, ringPhase_bp, macroPhase_bp, initCompare_bp,
      preparedState_bp] <;>
    omega


theorem processFrame_events_cases (mag : ℚ × ℚ → ℚ) (s : PState) (t : ℕ)
    (inp : FrameInput) :
    ∀ e ∈ (xensiv_radar_presence_process_frame mag s t inp).events,
      (e.state = PrState.macroPresence ∧
        (if s.bandpassInitialTimeMs = 0 then t + bandpassDelay
         else s.bandpassInitialTimeMs) < t ∧
        e.rangeBin ∈ binRange s.config) ∨
      (e.state = PrState.absence ∧ e.rangeBin = -1) ∨
      (e.state = PrState.microPresence ∧
        (s.config.microFftDecimationEnabled = false →
          e.rangeBin ∈ binRange s.config)) := by
  intro e he
  have macroCase :
      ∀ buf, e ∈ (macroPhase mag (initCompare (preparedState s t) buf) t
          buf).events →
        (e.state = PrState.macroPresence ∧
          (if s.bandpassInitialTimeMs = 0 then t + bandpassDelay
           else s.bandpassInitialTimeMs) < t ∧
          e.rangeBin ∈ binRange s.config) ∨
        (e.state = PrState.absence ∧ e.rangeBin = -1) ∨
        (e.state = PrState.microPresence ∧
          (s.config.microFftDecimationEnabled = false →
            e.rangeBin ∈ binRange s.config)) := by
    intro buf hm
    rcases macroPhase_events mag _ t buf e hm with ⟨h1, h2, h3⟩ | ⟨h1, h2⟩
    · rw [initCompare_bp, preparedState_bp] at h2
      rw [initCompare_config, preparedState_config] at h3
      exact Or.inl ⟨h1, h2, h3⟩
    · exact Or.inr (Or.inl ⟨h1, h2⟩)
  have microCase :
      ∀ buf, e ∈ (microTrack mag
          (ringPhase (macroPhase mag (initCompare (preparedState s t) buf) t
            buf).s) t inp.dopplerOut).2.1 →
        (e.state = PrState.microPresence ∧
          (s.config.microFftDecimationEnabled = false →
            e.rangeBin ∈ binRange s.config)) ∨
        (e.state = PrState.absence ∧ e.rangeBin = -1) := by
    intro buf hm
    have hc : (ringPhase (macroPhase mag (initCompare (preparedState s t) buf)
        t buf).s).config = s.config := by
      rw [ringPhase_config, macroPhase_config, initCompare_config,
        preparedState_config]
    rcases microTrack_events mag _ t inp.dopplerOut e hm with ⟨h1, h2⟩ | h
    · rw [hc] at h2
      exact Or.inl ⟨h1, h2⟩
    · exact Or.inr h
  unfold xensiv_radar_presence_process_frame at he
  dsimp only at he
  split at he <;> split at he
  · exact macroCase _ he
  · rcases List.mem_append.mp he with hmo | hmt
    · exact macroCase _ hmo
    · rcases microCase _ hmt with ⟨h1, h2⟩ | ⟨h1, h2⟩
      · exact Or.inr (Or.inr ⟨h1, h2⟩)
      · exact Or.inr (Or.inl ⟨h1, h2⟩)
  · exact macroCase _ he
  · rcases List.mem_append.mp he with hmo | hmt
    · exact macroCase _ hmo
    · rcases microCase _ hmt with ⟨h1, h2⟩ | ⟨h1, h2⟩
      · exact Or.inr (Or.inr ⟨h1, h2⟩)
      · exact Or.inr (Or.inl ⟨h1, h2⟩)

theorem macroPhase_compareEvaluated (mag : ℚ × ℚ → ℚ) (s : PState) (t : ℕ)
    (buf : List (ℚ × ℚ)) :
    (macroPhase mag s t buf).compareEvaluated = true ↔
      (s.config.mode ≠ PMode.microOnly ∧
       s.macroLastCompareMs + s.config.macroCompareIntervalMs < t ∧
       s.bandpassInitialTimeMs < t ∧
       t < s.macroLastCompareMs + 2 * s.config.macroCompareIntervalMs) := by
  unfold macroPhase
  dsimp only
  split
  case isTrue h =>
    simp only [decide_eq_true_eq]
    exact ⟨fun hin => ⟨h.1, h.2.1, h.2.2, hin⟩, fun hin => hin.2.2.2⟩
  case isFalse h =>
    simp only [Bool.false_eq_true, false_iff]
    intro hc
    exact h ⟨hc.1, hc.2.1, hc.2.2.1⟩

theorem initCompare_mode (s : PState) (buf : List (ℚ × ℚ)) :
    (initCompare s buf).config.mode = s.config.mode := by
  rw [initCompare_config]

theorem runFrames_macro_events (mag : ℚ × ℚ → ℚ)
    (frames : List (ℕ × FrameInput)) :
    ∀ s : PState, s.bandpassInitialTimeMs ≠ 0 →
      ∀ p ∈ (runFrames mag s frames).2,
        p.2.state = PrState.macroPresence → s.bandpassInitialTimeMs < p.1 := by
  induction frames with
  | nil => intro s _ p hp; simp [runFrames] at hp
  | cons f rest ih =>
    intro s hbp p hp hstate
    obtain ⟨t, inp⟩ := f
    simp only [runFrames] at hp
    rcases List.mem_append.mp hp with hfirst | hrest
    · rcases List.mem_map.mp hfirst with ⟨e, hev, hpe⟩
      rcases processFrame_events_cases mag s t inp e hev with
        ⟨h1, h2, _⟩ | ⟨h1, _⟩ | ⟨h1, _⟩
      · rw [if_neg hbp] at h2
        rw [← hpe] at hstate ⊢
        exact h2
      · rw [← hpe] at hstate
        rw [hstate] at h1
        cases h1
      · rw [← hpe] at hstate
        rw [hstate] at h1
        cases h1
    · have hbp2 : (xensiv_radar_presence_process_frame mag s t
          inp).newState.bandpassInitialTimeMs = s.bandpassInitialTimeMs := by
        rw [processFrame_bp, if_neg hbp]
      have := ih (xensiv_radar_presence_process_frame mag s t inp).newState
        (by rw [hbp2]; exact hbp) p hrest hstate
      rw [hbp2] at this
      exact this

theorem preparedState_lastCompareMs (s : PState) (t : ℕ) :
    (preparedState s t).macroLastCompareMs = s.macroLastCompareMs := rfl

/-- C2 (amended): for every call to `process_frame` with mode not
`MICRO_ONLY`, the frame-to-frame macro comparison over the range bins is
evaluated if and only if
`macro_last_compare_ms + interval < now < macro_last_compare_ms + 2*interval`
(strict at both ends, unlike the claim's `≤`) and `now` is strictly past the
bandpass warm-up deadline (as updated by this call). -/
theorem c2_compare_window (mag : ℚ × ℚ → ℚ) (s : PState) (t : ℕ)
    (inp : FrameInput) (h : s.config.mode ≠ PMode.microOnly) :
    (xensiv_radar_presence_process_frame mag s t inp).compareEvaluated =
        true ↔
      (s.macroLastCompareMs + s.config.macroCompareIntervalMs < t ∧
       t < s.macroLastCompareMs + 2 * s.config.macroCompareIntervalMs ∧
       (if s.bandpassInitialTimeMs = 0 then t + bandpassDelay
        else s.bandpassInitialTimeMs) < t) := by
  have key : ∀ buf,
      (macroPhase mag (initCompare (preparedState s t) buf) t
          buf).compareEvaluated = true ↔
        (s.macroLastCompareMs + s.config.macroCompareIntervalMs < t ∧
         t < s.macroLastCompareMs + 2 * s.config.macroCompareIntervalMs ∧
         (if s.bandpassInitialTimeMs = 0 then t + bandpassDelay
          else s.bandpassInitialTimeMs) < t) := by
    intro buf
    rw [macroPhase_compareEvaluated, initCompare_config, preparedState_config,
      initCompare_lastCompareMs, preparedState_lastCompareMs, initCompare_bp,
      preparedState_bp]
    constructor
    · rintro ⟨-, h1, h2, h3⟩
      exact ⟨h1, h3, h2⟩
    · rintro ⟨h1, h2, h3⟩
      exact ⟨h, h1, h3, h2⟩
  unfold xensiv_radar_presence_process_frame
  dsimp only
  split <;> split <;> exact key _

unseal Rat.mul Rat.add Rat.sub Rat.inv Rat.ofScientific in
/-- C2 counterexample: reachable state after zero frames at 0 ms and 600 ms
(default configuration, `interval = 250`).  At `now = 850` the claim's
window `last + interval ≤ now ≤ last + 2*interval` holds (with the warm-up
long past and mode not `MICRO_ONLY`), yet the code does not evaluate the
comparison: the code's bound `last + interval < now` is strict. -/
theorem c2_counterexample :
    twoFrameState.config.mode ≠ PMode.microOnly ∧
    twoFrameState.macroLastCompareMs +
        twoFrameState.config.macroCompareIntervalMs ≤ 850 ∧
    850 ≤ twoFrameState.macroLastCompareMs +
        2 * twoFrameState.config.macroCompareIntervalMs ∧
    twoFrameState.bandpassInitialTimeMs < 850 ∧
    (xensiv_radar_presence_process_frame cabsAxis twoFrameState 850
        inpZ64).compareEvaluated = false := by
  decide

unseal Rat.mul Rat.add Rat.sub Rat.inv Rat.ofScientific in
/-- C2 witness: the amended window formula instantiated on the same
reachable state at `now = 851`. -/
theorem c2_witness :
    ((xensiv_radar_presence_process_frame cabsAxis twoFrameState 851
        inpZ64).compareEvaluated = true ↔
      (twoFrameState.macroLastCompareMs +
          twoFrameState.config.macroCompareIntervalMs < 851 ∧
       851 < twoFrameState.macroLastCompareMs +
          2 * twoFrameState.config.macroCompareIntervalMs ∧
       (if twoFrameState.bandpassInitialTimeMs = 0 then 851 + bandpassDelay
        else twoFrameState.bandpassInitialTimeMs) < 851)) :=
  c2_compare_window cabsAxis twoFrameState 851 inpZ64 (by decide)

/-- C4: whenever the macro evaluation step runs with
`macro_hit_count ≥ macro_movement_confirmations` and declares a detection
(`macro_movement_idx = k ≥ 0`), the gate
`hot-bin count ≥ macro_trigger_range ∨ state ≠ ABSENCE` held, and `k` is the
smallest bin of `[min_range_bin, max_range_bin]` whose macro timestamp is
still valid at `now`. -/
theorem c4_macro_detection_rule (cfg : PConfig) (st : PrState) (hc : ℤ)
    (ts : List ℕ) (t : ℕ) (k : ℤ)
    (hconf : cfg.macroMovementConfirmations ≤ hc)
    (hk : macroMovementIdx cfg st hc ts t = k) (h0 : 0 ≤ k) :
    (cfg.macroTriggerRange ≤ macroDetectCount cfg ts t ∨
      st ≠ PrState.absence) ∧
    (cfg.minRangeBin ≤ k ∧ k ≤ cfg.maxRangeBin) ∧ t ≤ getTs ts k ∧
    ∀ j, cfg.minRangeBin ≤ j → j < k → ¬ (t ≤ getTs ts j) := by
  unfold macroMovementIdx at hk
  rw [if_pos hconf] at hk
  by_cases htrig : cfg.macroTriggerRange ≤ macroDetectCount cfg ts t ∨
      st ≠ PrState.absence
  · rw [if_pos htrig] at hk
    cases hf : findFirst (fun i => decide (t ≤ getTs ts i)) (binRange cfg) with
    | some i =>
      rw [hf] at hk
      have hik : i = k := hk
      subst hik
      obtain ⟨hmem, hp⟩ := findFirst_eq_some hf
      have hbounds := mem_binRange.mp hmem
      refine ⟨htrig, hbounds, by simpa using hp, ?_⟩
      intro j hj1 hj2 hhot
      have hjmem : j ∈ binRange cfg := mem_binRange.mpr ⟨hj1, by omega⟩
      have := findFirst_min (binRange_pairwise cfg) hf j hjmem
        (by simpa using hhot)
      omega
    | none =>
      rw [hf] at hk
      have : (-1 : ℤ) = k := hk
      omega
  · rw [if_neg htrig] at hk
    have : (-1 : ℤ) = k := hk
    omega

/-- C4 witness: with the default configuration, hit count 0
(`confirmations = 0`), timestamps `c4Ts` hot at bins 2, 3 and `now = 500`,
the declared bin is 2 and is still hot. -/
theorem c4_witness : (500 : ℕ) ≤ getTs c4Ts 2 :=
  (c4_macro_detection_rule xensiv_radar_presence_init_config PrState.absence
    0 c4Ts 500 2 (by decide) (by decide) (by decide)).2.2.1

/-- C8: `set_config` returns `FFT_LEN_ERROR` and leaves the handle unchanged
exactly when the requested `micro_fft_size` exceeds the allocation-time
value; otherwise it returns `OK` and stores the request with
`min_range_bin` and `max_range_bin` clamped down to
`max_range_limit_idx`. -/
theorem c8_set_config (s : PState) (c : PConfig) :
    (s.maxMicroFftSize < c.microFftSize →
      xensiv_radar_presence_set_config s c = (PStatus.fftLenError, s)) ∧
    (c.microFftSize ≤ s.maxMicroFftSize →
      (xensiv_radar_presence_set_config s c).1 = PStatus.ok ∧
      (xensiv_radar_presence_set_config s c).2 =
        { s with config :=
            { c with
              minRangeBin := min c.minRangeBin s.maxRangeLimitIdx,
              maxRangeBin := min c.maxRangeBin s.maxRangeLimitIdx } }) := by
  constructor
  · intro h
    unfold xensiv_radar_presence_set_config
    rw [if_pos h]
  · intro h
    unfold xensiv_radar_presence_set_config
    rw [if_neg (by omega)]
    refine ⟨rfl, ?_⟩
    dsimp only
    split_ifs <;> simp_all [PConfig.mk.injEq] <;> omega

unseal Rat.mul Rat.add Rat.sub Rat.inv Rat.ofScientific in
/-- C8 witness: requesting `micro_fft_size = 256` on a handle allocated
with 128 is rejected and the handle is unchanged. -/
theorem c8_witness :
    xensiv_radar_presence_set_config c8State c8BadCfg =
      (PStatus.fftLenError, c8State) :=
  (c8_set_config c8State c8BadCfg).1 (by decide)

/-- C9 (amended): after every successful `set_config`, the stored
`min_range_bin` and `max_range_bin` are each at most `max_range_limit_idx`.
The chain of the original claim is not enforced: `min ≤ max` is never
checked, and `max_range_limit_idx ≤ N/2` does not hold for every
bandwidth. -/
theorem c9_clamped_bounds (s : PState) (c : PConfig)
    (h : (xensiv_radar_presence_set_config s c).1 = PStatus.ok) :
    (xensiv_radar_presence_set_config s c).2.config.minRangeBin ≤
        s.maxRangeLimitIdx ∧
    (xensiv_radar_presence_set_config s c).2.config.maxRangeBin ≤
        s.maxRangeLimitIdx := by
  unfold xensiv_radar_presence_set_config at h ⊢
  split_ifs at h ⊢ with h1 h2 h3 <;>
    (constructor <;> dsimp only <;> omega)

unseal Rat.mul Rat.add Rat.sub Rat.inv Rat.ofScientific in
/-- C9 counterexample: allocating with bandwidth 2000 MHz gives
`max_range_limit_idx = 66`; `set_config` with `min_range_bin = 5`,
`max_range_bin = 3` succeeds, and the stored configuration violates the
claimed chain twice: `min_range_bin > max_range_bin`, and
`max_range_limit_idx > N/2 = macro_fft_size = 64`. -/
theorem c9_counterexample :
    (xensiv_radar_presence_set_config c9State c9ReqCfg).1 = PStatus.ok ∧
    ¬ ((xensiv_radar_presence_set_config c9State
          c9ReqCfg).2.config.minRangeBin ≤
        (xensiv_radar_presence_set_config c9State
          c9ReqCfg).2.config.maxRangeBin) ∧
    ¬ (c9State.maxRangeLimitIdx ≤ c9State.macroFftSize) := by
  decide

unseal Rat.mul Rat.add Rat.sub Rat.inv Rat.ofScientific in
/-- C9 witness: the amended clamp bounds instantiated on the same
reconfiguration. -/
theorem c9_witness :
    (xensiv_radar_presence_set_config c9State
        c9ReqCfg).2.config.minRangeBin ≤ c9State.maxRangeLimitIdx ∧
    (xensiv_radar_presence_set_config c9State
        c9ReqCfg).2.config.maxRangeBin ≤ c9State.maxRangeLimitIdx :=
  c9_clamped_bounds c9State c9ReqCfg (by decide)

/-- C1 (amended): in every call to `process_frame`, every event reported
through the callback carries `range_bin = -1` or
`min_range_bin ≤ range_bin ≤ max_range_bin`, provided the event is a
`MACRO_PRESENCE` event (any mode) or decimation is disabled.  With
decimation enabled a micro-track event can fall outside the configured
range (see the counterexample). -/
theorem c1_reported_bin_bounds (mag : ℚ × ℚ → ℚ) (s : PState) (t : ℕ)
    (inp : FrameInput) :
    ∀ e ∈ (xensiv_radar_presence_process_frame mag s t inp).events,
      (e.state = PrState.macroPresence →
        (e.rangeBin = -1 ∨ (s.config.minRangeBin ≤ e.rangeBin ∧
          e.rangeBin ≤ s.config.maxRangeBin))) ∧
      (s.config.microFftDecimationEnabled = false →
        (e.rangeBin = -1 ∨ (s.config.minRangeBin ≤ e.rangeBin ∧
          e.rangeBin ≤ s.config.maxRangeBin))) := by
  intro e he
  rcases processFrame_events_cases mag s t inp e he with
    ⟨h1, _, h3⟩ | ⟨h1, h2⟩ | ⟨h1, h2⟩
  · have hb := mem_binRange.mp h3
    exact ⟨fun _ => Or.inr hb, fun _ => Or.inr hb⟩
  · exact ⟨fun _ => Or.inl h2, fun _ => Or.inl h2⟩
  · constructor
    · intro hs
      rw [h1] at hs
      cases hs
    · intro hdec
      exact Or.inr (mem_binRange.mp (h2 hdec))

unseal Rat.mul Rat.add Rat.sub Rat.inv Rat.ofScientific in
/-- C1 counterexample: freshly allocated detector, decimation enabled, mode
`MICRO_ONLY`, `min_range_bin = 1`.  The first `process_frame` call at
`time_ms = 0` emits a `MICRO_PRESENCE` event with `range_bin = 0`, which is
neither `-1` nor inside `[min_range_bin, max_range_bin] = [1, 5]` (the
decimation selection scans from `last_reported_idx + 1 = 0` and the
zero-initialised macro timestamps are "hot" at time 0). -/
theorem c1_counterexample :
    (xensiv_radar_presence_process_frame cabsAxis c1State 0 inpZ64).events =
      [{ timestamp := 0, rangeBin := 0, state := PrState.microPresence }] ∧
    ¬ ((0 : ℤ) = -1 ∨
       (c1Cfg.minRangeBin ≤ 0 ∧ (0 : ℤ) ≤ c1Cfg.maxRangeBin)) := by
  decide

unseal Rat.mul Rat.add Rat.sub Rat.inv Rat.ofScientific in
/-- C1 witness: the amended bound instantiated on the macro event emitted
at 851 ms after two quiet frames (default configuration). -/
theorem c1_witness :
    (1 : ℤ) = -1 ∨
      (twoFrameState.config.minRangeBin ≤ 1 ∧
       (1 : ℤ) ≤ twoFrameState.config.maxRangeBin) :=
  ((c1_reported_bin_bounds cabsAxis twoFrameState 851 spikeInp64
      { timestamp := 851, rangeBin := 1, state := PrState.macroPresence }
      (by decide)).1 rfl)

/-- C5 (amended): a single call to `process_frame` emits at most two events
through the callback: at most one from the macro track (a macro report or a
macro-only absence) and at most one from the micro track (a micro report or
an absence); the claim's bound of one is exceeded (see the
counterexample). -/
theorem c5_at_most_two_events (mag : ℚ × ℚ → ℚ) (s : PState) (t : ℕ)
    (inp : FrameInput) :
    (xensiv_radar_presence_process_frame mag s t inp).events.length ≤ 2 := by
  unfold xensiv_radar_presence_process_frame
  dsimp only
  split <;> split <;>
    first
      | exact le_trans (macroPhase_events_len _ _ _ _) (by omega)
      | (rw [List.length_append]
         exact add_le_add (macroPhase_events_len _ _ _ _)
           (microTrack_len _ _ _ _))

unseal Rat.mul Rat.add Rat.sub Rat.inv Rat.ofScientific in
set_option maxRecDepth 10000 in
/-- C5 counterexample: detector allocated with `c5AllocCfg`, reconfigured
to `c5RunCfg` (decimation, mode `MICRO_AND_MACRO`, ring of 2 decimated
rows), fed 19 frames at 300 ms cadence (no events, state `ABSENCE`).  The
20th call emits TWO state-changing events through the callback: a
`MACRO_PRESENCE` report for bin 2 (state `ABSENCE → MACRO_PRESENCE`)
followed in the same call by an `ABSENCE` report (the Doppler column scan
sets `MICRO_PRESENCE` with confidence exactly 0, and the decimation
selection then finds no reportable bin, so `switch_to_absence` runs:
`MICRO_PRESENCE → ABSENCE`). -/
theorem c5_counterexample :
    c5sPre.state = PrState.absence ∧
    (xensiv_radar_presence_process_frame cabsAxis c5sPre 5710
        (c5Input 19).2).events =
      [{ timestamp := 5710, rangeBin := 2, state := PrState.macroPresence },
       { timestamp := 5710, rangeBin := -1, state := PrState.absence }] ∧
    (xensiv_radar_presence_process_frame cabsAxis c5sPre 5710
        (c5Input 19).2).newState.state = PrState.absence ∧
    ¬ ((xensiv_radar_presence_process_frame cabsAxis c5sPre 5710
        (c5Input 19).2).events.length ≤ 1) := by
  decide

unseal Rat.mul Rat.add Rat.sub Rat.inv Rat.ofScientific in
/-- C6 (refuting theorem for the code bug): freshly allocated detector with
decimation enabled and mode `MICRO_ONLY`.  The first call to
`process_frame` (here at `time_ms = 5`) reaches the micro-bin selection
step with `last_reported_idx = -1`, so line 932 of the source reads
`micro_detect_timestamps[-1]` - an out-of-bounds read, contradicting the
claim that the index always lies in `[0, macro_fft_size)`. -/
theorem c6_oob_read :
    (xensiv_radar_presence_process_frame cabsAxis c6State 5
        inpZ64).microSelReadIdx = some (-1) ∧
    ¬ ((0 : ℤ) ≤ -1) := by
  decide

/-- C3: starting from a freshly reset detector (bandpass filter enabled; the
code in fact guarantees this in every mode), no `MACRO_PRESENCE` event is
emitted at a time strictly before `t_first_frame + 490 ms`: the first call
sets `bandpass_initial_time_ms = t_first + 490` and every macro emission
requires `time_ms > bandpass_initial_time_ms`. -/
theorem c3_no_macro_event_before_warmup (mag : ℚ × ℚ → ℚ) (s : PState)
    (t0 : ℕ) (inp0 : FrameInput) (rest : List (ℕ × FrameInput))
    (_hbp : s.config.macroFftBandpassFilterEnabled = true) :
    ∀ p ∈ (runFrames mag (xensiv_radar_presence_reset s)
        ((t0, inp0) :: rest)).2,
      p.2.state = PrState.macroPresence → ¬ (p.1 < t0 + bandpassDelay) := by
  intro p hp hstate
  have hreset0 : (xensiv_radar_presence_reset s).bandpassInitialTimeMs = 0 :=
    rfl
  simp only [runFrames] at hp
  rcases List.mem_append.mp hp with hfirst | hrest
  · rcases List.mem_map.mp hfirst with ⟨e, hev, hpe⟩
    rcases processFrame_events_cases mag _ t0 inp0 e hev with
      ⟨h1, h2, _⟩ | ⟨h1, _⟩ | ⟨h1, _⟩
    · rw [hreset0, if_pos rfl] at h2
      omega
    · rw [← hpe] at hstate
      rw [hstate] at h1
      cases h1
    · rw [← hpe] at hstate
      rw [hstate] at h1
      cases h1
  · have hbp2 : (xensiv_radar_presence_process_frame mag
        (xensiv_radar_presence_reset s) t0
        inp0).newState.bandpassInitialTimeMs = t0 + bandpassDelay := by
      rw [processFrame_bp, hreset0, if_pos rfl]
    have hlt := runFrames_macro_events mag rest _ (by rw [hbp2]; unfold bandpassDelay; omega) p
      hrest hstate
    rw [hbp2] at hlt
    omega

unseal Rat.mul Rat.add Rat.sub Rat.inv Rat.ofScientific in
/-- C3 witness: bandpass-enabled run with frames at 0, 600 and 851 ms; the
macro event of the third call is at 851 ms, not before 0 + 490 ms. -/
theorem c3_witness : ¬ ((851 : ℕ) < 0 + bandpassDelay) :=
  c3_no_macro_event_before_warmup cabsAxis
    (xensiv_radar_presence_alloc c3Cfg) 0 inpZ64
    [(600, inpZ64), (851, spikeBpInp64)] (by decide)
    (851, { timestamp := 851, rangeBin := 1, state := PrState.macroPresence })
    (by decide) rfl

theorem initCompare_lastMacroCompare (s : PState) (buf : List (ℚ × ℚ)) :
    (initCompare s buf).lastMacroCompare =
      (if s.macroLastCompareInit = false then buf else s.lastMacroCompare) := by
  unfold initCompare
  split_ifs <;> rfl

theorem macroScanStep_self (mag : ℚ × ℚ → ℚ) (cfg : PConfig)
    (buf : List (ℚ × ℚ)) (t : ℕ) (hmag : mag (0, 0) = 0)
    (hth : 0 < cfg.macroThreshold) (a : MacroScan) (i : ℤ)
    (h : a.hit = false) :
    (macroScanStep mag cfg buf buf t a i).hit = false := by
  unfold macroScanStep
  have hd : csub (getC buf i) (getC buf i) = ((0 : ℚ), (0 : ℚ)) := by
    simp [csub]
  dsimp only
  rw [hd, hmag, zero_mul]
  split_ifs <;> simp_all [zero_mul] <;> linarith

theorem macroScan_self (mag : ℚ × ℚ → ℚ) (cfg : PConfig)
    (buf : List (ℚ × ℚ)) (t : ℕ) (hmag : mag (0, 0) = 0)
    (hth : 0 < cfg.macroThreshold) :
    ∀ (l : List ℤ) (a : MacroScan), a.hit = false →
      (l.foldl (macroScanStep mag cfg buf buf t) a).hit = false := by
  intro l
  induction l with
  | nil => intro a h; exact h
  | cons i is ih =>
    intro a h
    rw [List.foldl_cons]
    exact ih _ (macroScanStep_self mag cfg buf t hmag hth a i h)

theorem macroPhase_hit_self (mag : ℚ × ℚ → ℚ) (s : PState) (t : ℕ)
    (buf : List (ℚ × ℚ)) (hmag : mag (0, 0) = 0)
    (hth : 0 < s.config.macroThreshold)
    (heq : s.lastMacroCompare = buf) :
    (macroPhase mag s t buf).macroHit = false := by
  unfold macroPhase
  dsimp only
  split
  · dsimp only
    rw [heq]
    split_ifs with hin
    · exact macroScan_self mag s.config buf t hmag hth _ _ rfl
    · rfl
  · rfl

/-- C7 (amended): whenever the compare snapshot equals the current
(bandpass-disabled) spectrum - in particular when the identical frame is fed
again - every compared bin's difference is exactly `(0, 0)` and, provided
`macro_threshold > 0`, no macro hit is recorded by the call.  The claim's
"regardless of the value of macro_threshold" fails for thresholds `≤ 0`
(see the counterexample), and its exact two-call timing
(`t`, `t + interval`) in fact closes the compare window at the second
call. -/
theorem c7_identical_spectra (mag : ℚ × ℚ → ℚ) (s : PState) (t : ℕ)
    (inp : FrameInput)
    (hbp : s.config.macroFftBandpassFilterEnabled = false)
    (hmag : mag (0, 0) = 0)
    (heq : inp.spectrum = s.lastMacroCompare)
    (hth : 0 < s.config.macroThreshold) :
    (∀ i : ℤ, csub (getC inp.spectrum i) (getC s.lastMacroCompare i) =
      (0, 0)) ∧
    (xensiv_radar_presence_process_frame mag s t inp).macroHit = false := by
  constructor
  · intro i
    rw [heq]
    simp [csub]
  · unfold xensiv_radar_presence_process_frame
    simp only [hbp, Bool.false_eq_true, if_false]
    have hkey : (macroPhase mag (initCompare (preparedState s t)
        inp.spectrum) t inp.spectrum).macroHit = false := by
      apply macroPhase_hit_self
      · exact hmag
      · rw [initCompare_config, preparedState_config]
        exact hth
      · rw [initCompare_lastMacroCompare]
        split_ifs
        · rfl
        · rw [show (preparedState s t).lastMacroCompare =
              s.lastMacroCompare from rfl, ← heq]
    split <;> exact hkey

unseal Rat.mul Rat.add Rat.sub Rat.inv Rat.ofScientific in
/-- C7 counterexample: with `macro_threshold = 0` and
`macro_compare_interval_ms = 500`, feed the all-zero frame at `t = 1` and
the identical frame again at `t + interval = 501`.  The comparison is
evaluated, every diff is zero - and yet a macro hit IS recorded
(`0 ≥ macro_threshold`), so "no macro hit regardless of the value of
macro_threshold" is false. -/
theorem c7_counterexample :
    inpZ64.spectrum = c7s1.lastMacroCompare ∧
    (xensiv_radar_presence_process_frame cabsAxis c7s1 501
        inpZ64).compareEvaluated = true ∧
    (xensiv_radar_presence_process_frame cabsAxis c7s1 501
        inpZ64).macroHit = true ∧
    (xensiv_radar_presence_process_frame cabsAxis c7s1 501
        inpZ64).newState.macroMovementHitCount = 1 := by
  decide

unseal Rat.mul Rat.add Rat.sub Rat.inv Rat.ofScientific in
/-- C7 witness: same scenario with the default `macro_threshold = 1`: the
identical frame fed again at `t + interval` records no macro hit. -/
theorem c7_witness :
    (xensiv_radar_presence_process_frame cabsAxis c7bs1 501
        inpZ64).macroHit = false :=
  (c7_identical_spectra cabsAxis c7bs1 501 inpZ64 (by decide) (by decide)
    (by decide) (by decide)).2

theorem foldl_id {α β : Type} (f : α → β → α) (h : ∀ x b, f x b = x) :
    ∀ (l : List β) (a : α), l.foldl f a = a := by
  intro l
  induction l with
  | nil => intro a; rfl
  | cons b bs ih =>
    intro a
    rw [List.foldl_cons, h]
    exact ih a

theorem mag2_nonneg (z : ℚ × ℚ) : 0 ≤ mag2 z :=
  add_nonneg (mul_self_nonneg _) (mul_self_nonneg _)

theorem peakStep_fst_le (g : ℕ → ℚ) (a : ℚ × ℕ) (bin : ℕ) :
    a.1 ≤ (peakStep g a bin).1 := by
  unfold peakStep
  split_ifs with h
  · exact le_of_lt h
  · exact le_refl _

theorem peakFoldl_fst_le (g : ℕ → ℚ) :
    ∀ (l : List ℕ) (a : ℚ × ℕ), a.1 ≤ (l.foldl (peakStep g) a).1 := by
  intro l
  induction l with
  | nil => intro a; exact le_refl _
  | cons b bs ih =>
    intro a
    rw [List.foldl_cons]
    exact le_trans (peakStep_fst_le g a b) (ih _)

theorem peakFoldl_mem_le (g : ℕ → ℚ) :
    ∀ (l : List ℕ) (a : ℚ × ℕ) (b : ℕ), b ∈ l →
      g b ≤ (l.foldl (peakStep g) a).1 := by
  intro l
  induction l with
  | nil => intro a b hb; cases hb
  | cons c cs ih =>
    intro a b hb
    rw [List.foldl_cons]
    rcases List.mem_cons.mp hb with hb | hb
    · subst hb
      refine le_trans ?_ (peakFoldl_fst_le g cs (peakStep g a b))
      unfold peakStep
      split_ifs with h
      · exact le_refl _
      · exact le_of_not_lt h
    · exact ih _ b hb

theorem peakFoldl_cases (g : ℕ → ℚ) :
    ∀ (l : List ℕ) (a : ℚ × ℕ),
      l.foldl (peakStep g) a = a ∨
      ((l.foldl (peakStep g) a).2 ∈ l ∧
       (l.foldl (peakStep g) a).1 = g (l.foldl (peakStep g) a).2) := by
  intro l
  induction l with
  | nil => intro a; exact Or.inl rfl
  | cons c cs ih =>
    intro a
    rw [List.foldl_cons]
    rcases ih (peakStep g a c) with heq | ⟨hmem, hval⟩
    · rw [heq]
      unfold peakStep
      split_ifs with h
      · exact Or.inr ⟨List.mem_cons_self _ _, rfl⟩
      · exact Or.inl rfl
    · exact Or.inr ⟨List.mem_cons_of_mem _ hmem, hval⟩

/-- C10 (amended): `angle_range_compute` reports `valid = false` exactly
when every searched bin `1 ≤ b < 64` of antenna 0's spectrum has zero
magnitude; there is no `-30 dB` threshold (see the counterexample).  In
particular an all-zero frame (with the external FFT mapping the zero signal
to the zero spectrum, as any linear FFT does) yields `valid = false`. -/
theorem c10_validity (cfft : (ℕ → ℚ × ℚ) → ℕ → ℚ × ℚ) (frame : ℕ → ℚ) :
    ((angle_range_compute cfft frame).valid = false ↔
      ∀ b : ℕ, 1 ≤ b → b < 64 →
        mag2 (cfft (aoaMeanRemoved frame 0) b) = 0) ∧
    ((∀ f : ℕ → ℚ × ℚ, (∀ x, f x = (0, 0)) → ∀ b, cfft f b = (0, 0)) →
      (∀ i, frame i = 0) →
      (angle_range_compute cfft frame).valid = false) := by
  have hvalid : (angle_range_compute cfft frame).valid = false ↔
      ((peakSearch (cfft (aoaMeanRemoved frame 0))).1 ≤ 0 ∨
       (peakSearch (cfft (aoaMeanRemoved frame 0))).2 = 0) := by
    unfold angle_range_compute
    dsimp only
    split_ifs with h
    · exact iff_of_true rfl h
    · exact iff_of_false (by simp) h
  have hiff : (angle_range_compute cfft frame).valid = false ↔
      ∀ b : ℕ, 1 ≤ b → b < 64 →
        mag2 (cfft (aoaMeanRemoved frame 0) b) = 0 := by
    rw [hvalid]
    unfold peakSearch
    constructor
    · intro h b hb1 hb2
      have hmem : b ∈ List.range' 1 63 := by
        rw [List.mem_range'_1]
        omega
      have hle := peakFoldl_mem_le
        (fun bin => mag2 (cfft (aoaMeanRemoved frame 0) bin))
        (List.range' 1 63) (0, 0) b hmem
      have hnn := mag2_nonneg (cfft (aoaMeanRemoved frame 0) b)
      rcases h with h1 | h2
      · exact le_antisymm (le_trans hle h1) hnn
      · rcases peakFoldl_cases
            (fun bin => mag2 (cfft (aoaMeanRemoved frame 0) bin))
            (List.range' 1 63) (0, 0) with heq | ⟨hmem2, -⟩
        · rw [heq] at hle
          exact le_antisymm hle hnn
        · rw [h2] at hmem2
          rw [List.mem_range'_1] at hmem2
          omega
    · intro h
      rcases peakFoldl_cases
          (fun bin => mag2 (cfft (aoaMeanRemoved frame 0) bin))
          (List.range' 1 63) (0, 0) with heq | ⟨hmem, hval⟩
      · rw [heq]
        exact Or.inl (le_refl _)
      · rw [List.mem_range'_1] at hmem
        refine Or.inl ?_
        rw [hval, h _ hmem.1 (by omega)]
  refine ⟨hiff, fun hcfft hframe => ?_⟩
  have h1 : ∀ ant samp, build_average_chirp frame ant samp = (0, 0) := by
    intro ant samp
    unfold build_average_chirp
    simp only [hframe]
    rw [foldl_id _ (fun x b => by simp)]
    norm_num
  have h2 : ∀ ant, aoaMean frame ant = (0, 0) := by
    intro ant
    unfold aoaMean
    simp only [h1]
    rw [foldl_id _ (fun x b => by simp)]
    norm_num
  have h3 : ∀ x, aoaMeanRemoved frame 0 x = (0, 0) := by
    intro x
    unfold aoaMeanRemoved
    rw [h1, h2]
    simp [csub]
  rw [hiff]
  intro b _ _
  rw [hcfft _ h3 b]
  simp [mag2]

unseal Rat.mul Rat.add Rat.sub Rat.inv Rat.ofScientific in
set_option maxRecDepth 10000 in
/-- C10 counterexample: a spectrum with `peak_mag = 1e-4` - i.e.
`peak_power_db = 10*log10(1e-4) = -40 < -30` (for `m > 0`,
`10*log10(m) < -30` is exactly `m < 1/1000`) - still yields `valid = true`:
the code has no dB threshold, only `peak_mag <= 0 || peak_bin == 0`. -/
theorem c10_counterexample :
    (angle_range_compute tinyCfft zeroFrame).peakMag < 1 / 1000 ∧
    (angle_range_compute tinyCfft zeroFrame).valid = true := by
  decide

/-- C10 witness: the all-zero frame yields `valid = false` (the identity
map serves as the FFT oracle on a frame whose processed signal is zero; the
real FFT also maps zero to zero). -/
theorem c10_witness :
    (angle_range_compute (fun f => f) zeroFrame).valid = false :=
  (c10_validity (fun f => f) zeroFrame).2 (fun _ h b => h b) (fun _ => rfl)
